import Mathlib

/-!
Verification of the resilient-scraper control logic of
`linkedin_job_scraper.py` (class `LinkedInJobScraper`).

The Python source is shallowly embedded: external probes (the Selenium
driver, the DOM, the filesystem) are modelled as explicit input data;
`Option`/`Except` model a probe that raised one of the exception types
the source handles at that site; the scraper's mutable fields become
explicit state records threaded through the functions.  Each definition
mirrors one Python function and keeps its name.
-/

namespace LinkedInJobScraper

/-! ## Python values stored in resume state (`last_page` etc.)

`json.load` can put any JSON scalar into `self.last_page`; Python's
`isinstance(x, int)` is true for `int` and for `bool` (a subclass,
`True` behaving as `1`). -/

inductive PyVal where
  | pynone
  | pyint (n : Int)
  | pybool (b : Bool)
  | pystr (s : String)
deriving DecidableEq

/-- `isinstance(x, int)` together with the integer value Python would use. -/
def pyAsInt : PyVal → Option Int
  | .pyint n => some n
  | .pybool b => some (if b then 1 else 0)
  | _ => none

/-- Embeds `get_resume_start_page` (source lines 294-301): resume from the
stored `last_page` when it is an int with `end_page <= last_page <= start_page`,
else from `start_page`. -/
def get_resume_start_page (last_page : PyVal) (start_page end_page : Int) : Int :=
  match pyAsInt last_page with
  | some n => if end_page ≤ n ∧ n ≤ start_page then n else start_page
  | none => start_page

/-! ## Stuck-page detector (`_dom_ready`, `_page_seems_stuck`) -/

/-- Embeds `_dom_ready` (lines 780-786): document readiness is acceptable
when `document.readyState` is "complete" or "interactive". -/
def dom_ready (readyState : String) : Bool :=
  readyState == "complete" || readyState == "interactive"

/-- One evaluation of `_page_seems_stuck`'s two DOM probes.
`readyState = none` models the readiness script raising;
`loader = none` models the loader-selector script raising. -/
structure StuckProbe where
  readyState : Option String
  loader : Option Bool
deriving DecidableEq

/-- Embeds `_page_seems_stuck` (lines 788-812): `(not ready) and has_loader`,
with any exception inside the `try` caught and turned into `true`.  The
readiness probe runs first; the loader probe only runs if it succeeded. -/
def page_seems_stuck (p : StuckProbe) : Bool :=
  match p.readyState with
  | none => true
  | some s =>
    match p.loader with
    | none => true
    | some l => !(dom_ready s) && l

/-! ## Checkpoint classifier (`is_blocked_or_checkpoint`) -/

/-- Substring occurrence over character lists (Python's `in` on strings). -/
def containsSubAux (pat : List Char) : List Char → Bool
  | [] => pat.isEmpty
  | c :: rest => pat.isPrefixOf (c :: rest) || containsSubAux pat rest

/-- Python `pat in hay` for strings. -/
def strContains (hay pat : String) : Bool :=
  containsSubAux pat.toList hay.toList

/-- Python `s.lower()`, character by character. -/
def strLower (s : String) : String :=
  String.mk (s.toList.map Char.toLower)

/-- The `for by, sel in strong_selectors` loop of `is_blocked_or_checkpoint`
(lines 341-347): each `find_elements` call either raises (`Except.error`,
swallowed by the per-selector `try`) or reports whether elements were found. -/
def checkSelectors : List (Except Unit Bool) → Bool
  | [] => false
  | Except.ok true :: _ => true
  | Except.ok false :: rest => checkSelectors rest
  | Except.error _ :: rest => checkSelectors rest

/-- Embeds `is_blocked_or_checkpoint` (lines 312-349).  `urlProbe` models
`self.driver.current_url` and `titleProbe` models `self.driver.title`;
these two reads sit outside any `try`, so a raise there propagates
(`Except.error`).  The DOM-marker loop is fail-open per selector. -/
def is_blocked_or_checkpoint (urlProbe titleProbe : Except Unit String)
    (domProbes : List (Except Unit Bool)) : Except Unit Bool :=
  match urlProbe with
  | Except.error e => Except.error e
  | Except.ok u =>
    match titleProbe with
    | Except.error e => Except.error e
    | Except.ok t =>
      let url := strLower u
      let title := strLower t
      if strContains url "/checkpoint/" || strContains url "/challenge/" then Except.ok true
      else if strContains title "linkedin security verification" || strContains title "checkpoint" then
        Except.ok true
      else Except.ok (checkSelectors domProbes)

/-! ## Resume store (`load_state`) -/

/-- JSON values as produced by `json.load`. -/
inductive Json where
  | jnull
  | jbool (b : Bool)
  | jnum (n : Int)
  | jstr (s : String)
  | jarr (xs : List Json)
  | jobj (kvs : List (String × Json))

/-- Python `state.get(key, default)`: raises (`AttributeError`) unless the
loaded value is a dict. -/
def dictGet : Json → String → Json → Except Unit Json
  | .jobj kvs, k, dflt => Except.ok ((kvs.lookup k).getD dflt)
  | _, _, _ => Except.error ()

/-- Whether a JSON value is hashable in Python (may be a set element). -/
def jsonHashable : Json → Bool
  | .jarr _ => false
  | .jobj _ => false
  | _ => true

/-- Python equality on hashable (scalar) JSON values for set membership. -/
def scalarEq : Json → Json → Bool
  | .jnull, .jnull => true
  | .jbool a, .jbool b => a == b
  | .jnum a, .jnum b => a == b
  | .jstr a, .jstr b => a == b
  | _, _ => false

/-- Deduplication as done by building a Python set from scalar elements. -/
def dedupScalars : List Json → List Json
  | [] => []
  | x :: xs =>
    if (dedupScalars xs).any (scalarEq x) then dedupScalars xs
    else x :: dedupScalars xs

/-- Python `set(x)`: `x` must be iterable with hashable elements, else
`TypeError`.  A string iterates over its one-character substrings. -/
def pySet : Json → Except Unit (List Json)
  | .jarr xs => if xs.all jsonHashable then Except.ok (dedupScalars xs) else Except.error ()
  | .jstr s => Except.ok (dedupScalars (s.toList.map fun c => Json.jstr (String.mk [c])))
  | _ => Except.error ()

/-- The scraper fields that `load_state` assigns (lines 279-283). -/
structure ScraperResume where
  last_page : Json
  last_url : Json
  seen_job_ids : List Json

/-- Embeds `load_state` (lines 268-292).  `parsed` is the result of
`json.load` (`Except.error` = the file failed to parse).  The body mirrors
the statement order inside the `try`: `last_page` is assigned, then
`last_url`, then `seen_job_ids` is rebuilt via `set(...)`; the surrounding
`except Exception` returns `False`, keeping whatever assignments already
happened. -/
def load_state (parsed : Except Unit Json) (cur : ScraperResume) : ScraperResume × Bool :=
  match parsed with
  | Except.error _ => (cur, false)
  | Except.ok st =>
    match dictGet st "last_page" Json.jnull with
    | Except.error _ => (cur, false)
    | Except.ok lp =>
      match dictGet st "last_url" Json.jnull with
      | Except.error _ => ({ cur with last_page := lp }, false)
      | Except.ok lu =>
        match dictGet st "seen_job_ids" (Json.jarr []) with
        | Except.error _ => ({ cur with last_page := lp, last_url := lu }, false)
        | Except.ok seenJ =>
          match pySet seenJ with
          | Except.error _ => ({ cur with last_page := lp, last_url := lu }, false)
          | Except.ok s => ({ last_page := lp, last_url := lu, seen_job_ids := s }, true)

/-- Whether a JSON value is a dict. -/
def isObj : Json → Bool
  | .jobj _ => true
  | _ => false

/-- `kvs.get k` with default, for stating `load_state` facts. -/
def lookupD (kvs : List (String × Json)) (k : String) (d : Json) : Json :=
  (kvs.lookup k).getD d

/-! ## Navigation guard (`safe_get`, lines 814-863)

Each driver interaction is modelled by the data it would produce.
A `none`/`false` entry models the call raising one of the exception
types handled at that site (`ReadTimeoutError`, `TimeoutError`,
`WebDriverException`). -/

/-- Environment of one `safe_get` call. -/
structure NavEnv where
  /-- `driver.get(url)` succeeded (false = it raised a handled exception). -/
  getOk : Bool
  /-- Successive `_dom_ready()` probe results inside the first readiness
  poll loop; `none` = the probe raised; the list ends when `timeout_sec`
  elapses. -/
  poll1 : List (Option Bool)
  /-- The `_page_seems_stuck()` evaluation after the first poll. -/
  stuck1 : StuckProbe
  /-- `driver.refresh()` succeeded. -/
  refreshOk : Bool
  /-- Successive iterations of the 20-second post-refresh poll: a
  `_dom_ready()` probe result and the `_page_seems_stuck()` probe of the
  same iteration. -/
  poll2 : List (Option Bool × StuckProbe)
  /-- The `post_wait_xpath` element appeared within the 15-second wait. -/
  markerFound : Bool
  /-- The `_page_seems_stuck()` evaluation run when the marker timed out. -/
  stuck3 : StuckProbe

/-- The first readiness poll loop: ends the wait on a `true` probe, turns a
raising probe into `RestartSession` (`Except.error`), and falls through
when the window elapses. -/
def pollReady : List (Option Bool) → Except Unit Unit
  | [] => Except.ok ()
  | none :: _ => Except.error ()
  | some true :: _ => Except.ok ()
  | some false :: rest => pollReady rest

/-- One iteration of the post-refresh poll breaks out of the loop:
`self._dom_ready() and not self._page_seems_stuck()`. -/
def recoversNow (x : Option Bool × StuckProbe) : Bool :=
  match x.1 with
  | none => false
  | some r => r && !(page_seems_stuck x.2)

/-- The post-refresh poll loop (lines 845-852). -/
def pollRecovered : List (Option Bool × StuckProbe) → Except Unit Unit
  | [] => Except.ok ()
  | x :: rest =>
    match x.1 with
    | none => Except.error ()
    | some r =>
      if r && !(page_seems_stuck x.2) then Except.ok ()
      else pollRecovered rest

/-- Driver-changing actions `safe_get` issues, for counting refreshes. -/
inductive NavAct where
  | navigate
  | refresh
deriving DecidableEq

/-- The trailing `post_wait_xpath` block (lines 855-863). -/
def postWaitCheck (env : NavEnv) (post_wait : Bool) : Except Unit Unit :=
  if post_wait && !env.markerFound then
    if page_seems_stuck env.stuck3 then Except.error () else Except.ok ()
  else Except.ok ()

/-- Embeds `safe_get` (lines 814-863).  Returns the call's outcome
(`Except.error` = `RestartSession` raised) paired with the driver actions
issued.  `post_wait` records whether a `post_wait_xpath` was supplied. -/
def safe_get (env : NavEnv) (post_wait : Bool) : Except Unit Unit × List NavAct :=
  if env.getOk = false then (Except.error (), [NavAct.navigate])
  else
    match pollReady env.poll1 with
    | Except.error _ => (Except.error (), [NavAct.navigate])
    | Except.ok _ =>
      if page_seems_stuck env.stuck1 then
        if env.refreshOk = false then (Except.error (), [NavAct.navigate, NavAct.refresh])
        else
          match pollRecovered env.poll2 with
          | Except.error _ => (Except.error (), [NavAct.navigate, NavAct.refresh])
          | Except.ok _ => (postWaitCheck env post_wait, [NavAct.navigate, NavAct.refresh])
      else (postWaitCheck env post_wait, [NavAct.navigate])

/-- A readiness-poll window raises: some probe raised before any probe
returned ready. -/
def pollRaisesCond (l : List (Option Bool)) : Prop :=
  ∃ pre rest, l = pre ++ none :: rest ∧ ∀ x ∈ pre, x = some false

/-- A post-refresh poll window raises: some `_dom_ready` probe raised
before any iteration satisfied the break condition. -/
def pollRecRaisesCond (l : List (Option Bool × StuckProbe)) : Prop :=
  ∃ pre p rest, l = pre ++ p :: rest ∧ p.1 = none ∧
    ∀ x ∈ pre, x.1 ≠ none ∧ recoversNow x = false

/-! ## Outer retry loop (`run`, lines 976-1089) -/

/-- The fixed restart budget (line 977). -/
def MAX_RESTARTS : Nat := 6

/-- How one iteration of the `while True` loop in `run` ends.  The driver
interactions inside the iteration are abstracted to the exception (or
success) that reaches `run`'s handlers:

* `loginRestart` — `RestartSession` escaped `setup_driver`/`manual_login`,
  before the health check (no strike is recorded);
* `healthFail` — `profile_healthy()` returned false, so the strike counter
  was incremented and `RestartSession` raised (lines 996-999);
* `blocked` — `guard_not_blocked` raised `RuntimeError` during scraping
  (after the health check passed, which reset the strike counter);
* `navRestart` — `RestartSession` escaped `scrape_page` during scraping
  (after the health check passed, which reset the strike counter);
* `interrupted` — `KeyboardInterrupt`;
* `success` — the page loop and final save completed. -/
inductive Ev where
  | loginRestart
  | healthFail
  | blocked
  | navRestart
  | interrupted
  | success
deriving DecidableEq

/-- Remediation actions taken by `run`'s handlers before retrying. -/
inductive Step where
  | reuseSession
  | profileReset
deriving DecidableEq

/-- How the `run` loop terminated. -/
inductive RunEnd where
  | completed
  | interruptedEnd
  | tooMany
  | outOfEvents
deriving DecidableEq

/-- Exception kinds that `run` retries on (counted against the budget). -/
def isFailure : Ev → Bool
  | .loginRestart => true
  | .healthFail => true
  | .blocked => true
  | .navRestart => true
  | .interrupted => false
  | .success => false

/-- Embeds the `while True` loop of `run` over a stream of iteration
outcomes, threading `profile_poison_strikes` and `restarts`.  Returns the
remediation steps taken (in order) and how the run ended;
`RunEnd.outOfEvents` marks a trace too short to reach termination. -/
def runLoop : List Ev → Nat → Nat → List Step × RunEnd
  | [], _, _ => ([], RunEnd.outOfEvents)
  | e :: rest, strikes, restarts =>
    match e with
    | .success => ([], RunEnd.completed)
    | .interrupted => ([], RunEnd.interruptedEnd)
    | .blocked =>
      if restarts + 1 > MAX_RESTARTS then ([], RunEnd.tooMany)
      else
        let r := runLoop rest 0 (restarts + 1)
        (Step.reuseSession :: r.1, r.2)
    | .navRestart =>
      if restarts + 1 > MAX_RESTARTS then ([], RunEnd.tooMany)
      else
        let r := runLoop rest 0 (restarts + 1)
        (Step.reuseSession :: r.1, r.2)
    | .loginRestart =>
      if restarts + 1 > MAX_RESTARTS then ([], RunEnd.tooMany)
      else if strikes ≤ 1 then
        let r := runLoop rest strikes (restarts + 1)
        (Step.reuseSession :: r.1, r.2)
      else
        let r := runLoop rest 0 (restarts + 1)
        (Step.profileReset :: r.1, r.2)
    | .healthFail =>
      if restarts + 1 > MAX_RESTARTS then ([], RunEnd.tooMany)
      else if strikes + 1 ≤ 1 then
        let r := runLoop rest (strikes + 1) (restarts + 1)
        (Step.reuseSession :: r.1, r.2)
      else
        let r := runLoop rest 0 (restarts + 1)
        (Step.profileReset :: r.1, r.2)

/-! ## Job-id extraction (`extract_job_id_from_url`, lines 393-395) -/

/-- The literal pattern prefix of the regex `/jobs/view/(\d+)`. -/
def jobsViewPat : List Char := "/jobs/view/".toList

/-- Try to match `/jobs/view/(\d+)` at the start of `cs`, returning the
captured digit run. -/
def matchAt (cs : List Char) : Option (List Char) :=
  if jobsViewPat.isPrefixOf cs then
    let ds := (cs.drop jobsViewPat.length).takeWhile Char.isDigit
    if ds.isEmpty then none else some ds
  else none

/-- `re.search`: leftmost match of `/jobs/view/(\d+)`. -/
def searchJobId : List Char → Option (List Char)
  | [] => none
  | c :: cs =>
    match matchAt (c :: cs) with
    | some ds => some ds
    | none => searchJobId cs

/-- Embeds `extract_job_id_from_url`: the captured digits, else the
sentinel `"unknown"`. -/
def extract_job_id_from_url (url : String) : String :=
  match searchJobId url.toList with
  | some ds => String.mk ds
  | none => "unknown"

/-- The url contains a `/jobs/view/<digits>` segment (at least one digit
directly after the literal prefix). -/
def hasJobsViewId (url : String) : Prop :=
  ∃ pre d post, url.toList = pre ++ jobsViewPat ++ d :: post ∧ d.isDigit = true

/-! ## List-page extraction (`get_jobs_from_list_page`, lines 450-557)

An `Anchor` is one `<a href*='/jobs/view/'>` element found on the list
page, with the best-effort hint texts its surrounding card would yield.
The DOM-reading fallback chains for the hints are themselves excluded
record-extraction detail; their results are carried as data. -/

structure Anchor where
  href : Option String
  roleHint : Option String := none
  companyHint : Option String := none
  appliedRel : Option String := none
deriving DecidableEq

/-- The dataclass `JobListItem` (lines 47-53). -/
structure JobListItem where
  url : String
  role_hint : Option String
  company_hint : Option String
  applied_relative : Option String
  job_id : String
deriving DecidableEq

/-- Embeds the anchor loop of `get_jobs_from_list_page`: anchors without an
href are skipped; an anchor whose extracted id is `"unknown"` or already in
`seen_job_ids` is skipped; otherwise a `JobListItem` is appended and the id
added to `seen_job_ids`.  Returns the items and the updated seen set. -/
def get_jobs_from_list_page : List Anchor → Finset String → List JobListItem × Finset String
  | [], seen => ([], seen)
  | a :: rest, seen =>
    match a.href with
    | none => get_jobs_from_list_page rest seen
    | some url =>
      let jid := extract_job_id_from_url url
      if jid = "unknown" ∨ jid ∈ seen then get_jobs_from_list_page rest seen
      else
        let r := get_jobs_from_list_page rest (insert jid seen)
        (⟨url, a.roleHint, a.companyHint, a.appliedRel, jid⟩ :: r.1, r.2)

/-- The set of usable (non-`"unknown"`) job ids a list of anchors yields. -/
def pageIds : List Anchor → Finset String
  | [] => ∅
  | a :: rest =>
    match a.href with
    | none => pageIds rest
    | some url =>
      let jid := extract_job_id_from_url url
      if jid = "unknown" then pageIds rest else insert jid (pageIds rest)

/-! ## Per-page item loop and multi-page run (`scrape_page`, `run`)

`scrape_job_details` is the excluded record-extraction collaborator: for
these claims only the identity of the produced row matters, so a row keeps
the item's id, url and the page number the caller stamps on it.  `fails`
says which items' detail scrapes raise (caught at lines 962-963). -/

structure Row where
  job_id : String
  url : String
  page_number : Int
deriving DecidableEq

/-- The fragment of the state file `save_state` writes that these claims
mention. -/
structure PersistedState where
  seenS : Finset String
  lastPage : Int
deriving DecidableEq

/-- In-memory scraper state: `self.data`, `self.seen_job_ids`, and the
current durable contents of the state file (`none` = never saved). -/
structure RunState where
  data : List Row
  seen : Finset String
  persisted : Option PersistedState

/-- The `for i, job in enumerate(jobs)` loop of `scrape_page`
(lines 947-966): a failing item is logged and skipped; a successful item
appends its row and then `save_state` persists the current seen set. -/
def scrape_items (page_num : Int) (fails : String → Bool) :
    List JobListItem → RunState → RunState
  | [], st => st
  | it :: rest, st =>
    if fails it.job_id then scrape_items page_num fails rest st
    else
      scrape_items page_num fails rest
        { data := st.data ++ [⟨it.job_id, it.url, page_num⟩],
          seen := st.seen,
          persisted := some ⟨st.seen, page_num⟩ }

/-- Embeds `scrape_page` (lines 899-973): `save_state` on page entry, then
list extraction (which is where ids enter `seen_job_ids`), then the item
loop.  Navigation, blocking and scrolling are orthogonal to these claims
and taken as succeeding. -/
def scrape_page (page_num : Int) (fails : String → Bool) (anchors : List Anchor)
    (st : RunState) : RunState :=
  let st0 : RunState := { st with persisted := some ⟨st.seen, page_num⟩ }
  let r := get_jobs_from_list_page anchors st0.seen
  scrape_items page_num fails r.1 { st0 with seen := r.2 }

/-- Like `scrape_page` but the item loop stops (is interrupted) after the
first `k` items. -/
def scrape_page_upto (k : Nat) (page_num : Int) (fails : String → Bool)
    (anchors : List Anchor) (st : RunState) : RunState :=
  let st0 : RunState := { st with persisted := some ⟨st.seen, page_num⟩ }
  let r := get_jobs_from_list_page anchors st0.seen
  scrape_items page_num fails (r.1.take k) { st0 with seen := r.2 }

/-- The page loop of `run` (line 1006): each page is a page number and the
anchors its list view shows. -/
def run_pages (fails : String → Bool) : List (Int × List Anchor) → RunState → RunState
  | [], st => st
  | pg :: rest, st => run_pages fails rest (scrape_page pg.1 fails pg.2 st)

/-- All usable job ids any of the pages shows. -/
def allIds : List (Int × List Anchor) → Finset String
  | [] => ∅
  | pg :: rest => pageIds pg.2 ∪ allIds rest

/-- Number of rows in the result collection carrying a given job id. -/
def countRows (rows : List Row) (jid : String) : Nat :=
  rows.countP fun r => r.job_id = jid

/-- Number of list items carrying a given job id. -/
def countItems (items : List JobListItem) (jid : String) : Nat :=
  items.countP fun it => it.job_id = jid

/-! ## Theorems -/

/-- C4: for every stored `last_page` and configured inclusive range,
`get_resume_start_page` returns the stored page exactly when it is an
integer with `end_page <= last_page <= start_page`, and the configured
`start_page` otherwise (absent/None/non-integer included). -/
theorem c4_resume_start_page (lp : PyVal) (sp ep : Int) :
    (∀ n, pyAsInt lp = some n →
      get_resume_start_page lp sp ep = if ep ≤ n ∧ n ≤ sp then n else sp) ∧
    (pyAsInt lp = none → get_resume_start_page lp sp ep = sp) := by
  constructor
  · intro n hn
    simp [get_resume_start_page, hn]
  · intro hn
    simp [get_resume_start_page, hn]

/-- Witness for `c4_resume_start_page` at `last_page = 5`, range `[1, 10]`,
and at a stored `None`. -/
theorem c4_witness :
    (get_resume_start_page (PyVal.pyint 5) 10 1 = if (1:Int) ≤ 5 ∧ (5:Int) ≤ 10 then 5 else 10) ∧
    get_resume_start_page PyVal.pynone 10 1 = 10 :=
  ⟨(c4_resume_start_page (PyVal.pyint 5) 10 1).1 5 rfl,
   (c4_resume_start_page PyVal.pynone 10 1).2 rfl⟩

/-- C7: `_page_seems_stuck` returns `(not ready) and hasLoader` where ready
means readiness is "complete" or "interactive"; it returns false whenever
readiness is "complete" regardless of the indicator value; and it returns
true whenever the readiness probe or the loader probe raises. -/
theorem c7_page_seems_stuck :
    (∀ s l, page_seems_stuck ⟨some s, some l⟩ = (!(s == "complete" || s == "interactive") && l)) ∧
    (∀ l, page_seems_stuck ⟨some "complete", some l⟩ = false) ∧
    (∀ lp, page_seems_stuck ⟨none, lp⟩ = true) ∧
    (∀ s, page_seems_stuck ⟨some s, none⟩ = true) := by
  refine ⟨fun s l => rfl, fun l => by cases l <;> rfl, fun lp => rfl, fun s => rfl⟩

/-- C9 counterexample: a state file that parses but whose `seen_job_ids`
is a number (`set(5)` raises `TypeError`) makes `load_state` report no
prior state (`false`) yet still mutates `last_page` away from its prior
value — a partial subset of the stored fields is applied. -/
theorem c9_counterexample :
    load_state
        (Except.ok (Json.jobj [("last_page", Json.jnum 99), ("seen_job_ids", Json.jnum 5)]))
        ⟨Json.jnull, Json.jnull, []⟩
      = (⟨Json.jnum 99, Json.jnull, []⟩, false) ∧ Json.jnum 99 ≠ Json.jnull :=
  ⟨rfl, fun h => Json.noConfusion h⟩

/-- C9 amended: a parse failure, or a parsed value that is not an object,
leaves the resume fields untouched and reports no prior state; but when
parsing succeeds and only the `set(seen_job_ids)` step fails, `last_page`
and `last_url` have already been reassigned (with `seen_job_ids` kept),
and `false` is still returned — the load is not all-or-nothing. -/
theorem c9_load_state_amended :
    (∀ cur, load_state (Except.error ()) cur = (cur, false)) ∧
    (∀ cur st, isObj st = false → load_state (Except.ok st) cur = (cur, false)) ∧
    (∀ cur kvs, pySet (lookupD kvs "seen_job_ids" (Json.jarr [])) = Except.error () →
      load_state (Except.ok (Json.jobj kvs)) cur
        = (⟨lookupD kvs "last_page" Json.jnull, lookupD kvs "last_url" Json.jnull,
            cur.seen_job_ids⟩, false)) := by
  refine ⟨fun cur => rfl, fun cur st h => ?_, fun cur kvs h => ?_⟩
  · cases st <;> simp_all [isObj, load_state, dictGet]
  · simp only [load_state, dictGet, lookupD] at h ⊢
    rw [h]

/-- Witness for `c9_load_state_amended`: a parsed object whose
`seen_job_ids` is the number 7. -/
theorem c9_witness :
    load_state (Except.ok (Json.jobj [("seen_job_ids", Json.jnum 7)]))
        ⟨Json.jnull, Json.jnull, []⟩
      = (⟨lookupD [("seen_job_ids", Json.jnum 7)] "last_page" Json.jnull,
          lookupD [("seen_job_ids", Json.jnum 7)] "last_url" Json.jnull, []⟩, false) :=
  c9_load_state_amended.2.2 ⟨Json.jnull, Json.jnull, []⟩ [("seen_job_ids", Json.jnum 7)] rfl

/-- C8 counterexample: when the address probe (`driver.current_url`)
raises, `is_blocked_or_checkpoint` does not return false — the failure
propagates out as an exception, contrary to blanket fail-open. -/
theorem c8_counterexample :
    is_blocked_or_checkpoint (Except.error ()) (Except.ok "") [] = Except.error () := rfl

/-- A DOM-marker probe that does not report a found marker: it raised, or
found no elements. -/
def noMarkerSignal : Except Unit Bool → Bool
  | Except.error _ => true
  | Except.ok b => !b

/-- C8 amended: DOM-marker lookups are fail-open — a raising selector
lookup is treated as not matching, and with no URL or title signal the
classifier returns false; only the address/title probes (outside any
`try`) can propagate an exception. -/
theorem c8_fail_open_amended (u t : String) (probes : List (Except Unit Bool))
    (hp : probes.all noMarkerSignal = true)
    (hu1 : strContains (strLower u) "/checkpoint/" = false)
    (hu2 : strContains (strLower u) "/challenge/" = false)
    (ht1 : strContains (strLower t) "linkedin security verification" = false)
    (ht2 : strContains (strLower t) "checkpoint" = false) :
    is_blocked_or_checkpoint (Except.ok u) (Except.ok t) probes = Except.ok false := by
  have hsel : checkSelectors probes = false := by
    induction probes with
    | nil => rfl
    | cons p rest ih =>
      rw [List.all_cons, Bool.and_eq_true] at hp
      cases p with
      | error e => exact ih hp.2
      | ok b =>
        cases b
        · exact ih hp.2
        · exact absurd hp.1 (by simp [noMarkerSignal])
  simp [is_blocked_or_checkpoint, hu1, hu2, ht1, ht2, hsel]

/-- Witness for `c8_fail_open_amended`: an ordinary feed URL and title,
one raising selector lookup and one empty lookup. -/
theorem c8_witness :
    is_blocked_or_checkpoint (Except.ok "https://www.linkedin.com/feed/")
        (Except.ok "LinkedIn") [Except.error (), Except.ok false] = Except.ok false :=
  c8_fail_open_amended "https://www.linkedin.com/feed/" "LinkedIn"
    [Except.error (), Except.ok false] (by decide) (by decide) (by decide) (by decide) (by decide)

/-- C5 counterexample: a health-check failure (strike 1) followed
immediately — no healthy session in between — by a `RestartSession` from
the next login attempt is two consecutive `SessionUnresponsive` failures,
yet the second is handled by session reuse: the profile is never
destroyed. -/
theorem c5_counterexample :
    runLoop [Ev.healthFail, Ev.loginRestart] 0 0
        = ([Step.reuseSession, Step.reuseSession], RunEnd.outOfEvents) ∧
      (runLoop [Ev.healthFail, Ev.loginRestart] 0 0).1.count Step.profileReset = 0 := by
  exact ⟨rfl, rfl⟩

/-- C5 amended: only health-check failures increment the poison-strike
counter, so two consecutive health-check failures select session reuse on
the first and profile destruction on the second (after which the counter
is zeroed); `RestartSession`s raised elsewhere never advance the counter,
and a healthy check resets it to 0 (modelled by the `0` strike state in
which post-health events run). -/
theorem c5_strikes_amended (rest : List Ev) (restarts : Nat)
    (h : restarts + 2 ≤ MAX_RESTARTS) :
    runLoop (Ev.healthFail :: Ev.healthFail :: rest) 0 restarts
      = (Step.reuseSession :: Step.profileReset :: (runLoop rest 0 (restarts + 2)).1,
         (runLoop rest 0 (restarts + 2)).2) := by
  have h1 : ¬ (restarts + 1 > MAX_RESTARTS) := by omega
  have h2 : ¬ (restarts + 1 + 1 > MAX_RESTARTS) := by omega
  simp [runLoop, h1, h2]

/-- Witness for `c5_strikes_amended` on the two-failure trace. -/
theorem c5_amended_witness :
    0 + 2 ≤ MAX_RESTARTS ∧
      runLoop [Ev.healthFail, Ev.healthFail] 0 0
        = (Step.reuseSession :: Step.profileReset :: (runLoop [] 0 (0 + 2)).1,
           (runLoop [] 0 (0 + 2)).2) :=
  ⟨by decide, c5_strikes_amended [] 0 (by decide)⟩

/-- Every run performs at most `MAX_RESTARTS - restarts` further retries. -/
theorem runLoop_length_le (evs : List Ev) :
    ∀ strikes restarts, (runLoop evs strikes restarts).1.length ≤ MAX_RESTARTS - restarts := by
  induction evs with
  | nil => intro strikes restarts; simp [runLoop]
  | cons e rest ih =>
    intro strikes restarts
    by_cases hb : restarts + 1 > MAX_RESTARTS
    · cases e <;> simp [runLoop, hb]
    · have h0 := ih 0 (restarts + 1)
      have h1 := ih strikes (restarts + 1)
      have h2 := ih (strikes + 1) (restarts + 1)
      simp only [MAX_RESTARTS] at h0 h1 h2 hb
      cases e
      · by_cases hs : strikes ≤ 1 <;> simp [runLoop, MAX_RESTARTS, hb, hs] <;> omega
      · by_cases hs : strikes + 1 ≤ 1 <;> simp [runLoop, MAX_RESTARTS, hb, hs] <;> omega
      · simp [runLoop, MAX_RESTARTS, hb]
        omega
      · simp [runLoop, MAX_RESTARTS, hb]
        omega
      · simp [runLoop]
      · simp [runLoop]

/-- C6: all retryable failures (blocked `RuntimeError` and
`RestartSession` alike) draw on one budget counter: a run started with a
zero counter performs at most `MAX_RESTARTS` retries, and a failure of any
kind arriving with the budget exhausted terminates the run immediately
(`tooMany`) with no remediation step. -/
theorem c6_restart_budget :
    (∀ evs strikes, (runLoop evs strikes 0).1.length ≤ MAX_RESTARTS) ∧
    (∀ e evs strikes restarts, isFailure e = true → MAX_RESTARTS ≤ restarts →
      runLoop (e :: evs) strikes restarts = ([], RunEnd.tooMany)) := by
  constructor
  · intro evs strikes
    simpa using runLoop_length_le evs strikes 0
  · intro e evs strikes restarts hf hr
    have hb : restarts + 1 > MAX_RESTARTS := by omega
    cases e <;> simp_all [runLoop, isFailure]

/-- Witness for `c6_restart_budget`: a blocked failure at a fresh budget,
and a 7th restart-of-any-kind with the budget exhausted. -/
theorem c6_witness :
    (runLoop [Ev.blocked] 0 0).1.length ≤ MAX_RESTARTS ∧
      runLoop [Ev.navRestart] 0 MAX_RESTARTS = ([], RunEnd.tooMany) :=
  ⟨c6_restart_budget.1 [Ev.blocked] 0,
   c6_restart_budget.2 Ev.navRestart [] 0 MAX_RESTARTS rfl (Nat.le_refl _)⟩

/-- The first readiness poll raises iff a raising probe precedes every
ready probe. -/
theorem pollReady_error_iff (l : List (Option Bool)) :
    pollReady l = Except.error () ↔ pollRaisesCond l := by
  induction l with
  | nil =>
    constructor
    · intro h
      exact absurd h (by simp [pollReady])
    · rintro ⟨pre, rest, heq, -⟩
      exact absurd heq (by simp)
  | cons o rest ih =>
    cases o with
    | none =>
      constructor
      · intro _
        exact ⟨[], rest, rfl, by simp⟩
      · intro _
        rfl
    | some b =>
      cases b with
      | false =>
        constructor
        · intro h
          rcases ih.mp h with ⟨pre, r, heq, hall⟩
          refine ⟨some false :: pre, r, by simp [heq], ?_⟩
          intro x hx
          rcases List.mem_cons.mp hx with hx | hx
          · exact hx
          · exact hall x hx
        · rintro ⟨pre, r, heq, hall⟩
          cases pre with
          | nil => simp at heq
          | cons p pre2 =>
            rw [List.cons_append] at heq
            injection heq with he1 he2
            exact ih.mpr ⟨pre2, r, he2, fun x hx => hall x (List.mem_cons_of_mem _ hx)⟩
      | true =>
        constructor
        · intro h
          exact absurd h (by simp [pollReady])
        · rintro ⟨pre, r, heq, hall⟩
          cases pre with
          | nil => simp at heq
          | cons p pre2 =>
            have h1 : p = some false := hall p (List.mem_cons_self _ _)
            rw [List.cons_append] at heq
            injection heq with he1 he2
            rw [h1] at he1
            exact absurd he1 (by simp)

/-- The post-refresh poll raises iff a raising `_dom_ready` probe comes
before any iteration that satisfies the recovery condition. -/
theorem pollRecovered_error_iff (l : List (Option Bool × StuckProbe)) :
    pollRecovered l = Except.error () ↔ pollRecRaisesCond l := by
  induction l with
  | nil =>
    constructor
    · intro h
      exact absurd h (by simp [pollRecovered])
    · rintro ⟨pre, p, rest, heq, -, -⟩
      exact absurd heq (by simp)
  | cons x rest ih =>
    rcases x with ⟨o, sp⟩
    cases o with
    | none =>
      constructor
      · intro _
        exact ⟨[], (none, sp), rest, rfl, rfl, by simp⟩
      · intro _
        rfl
    | some r =>
      by_cases hc : (r && !(page_seems_stuck sp)) = true
      · constructor
        · intro h
          rw [show pollRecovered ((some r, sp) :: rest) = Except.ok () from by
            simp [pollRecovered, hc]] at h
          exact absurd h (by simp)
        · rintro ⟨pre, p, rr, heq, hp, hall⟩
          cases pre with
          | nil =>
            rw [List.nil_append] at heq
            injection heq with he1 he2
            rw [← he1] at hp
            exact absurd hp (by simp)
          | cons y pre2 =>
            rw [List.cons_append] at heq
            injection heq with he1 he2
            have h2 := hall y (List.mem_cons_self _ _)
            rw [← he1] at h2
            have : recoversNow (some r, sp) = true := by simp [recoversNow, hc]
            rw [this] at h2
            exact absurd h2.2 (by simp)
      · have hcf : (r && !(page_seems_stuck sp)) = false := by
          revert hc
          cases (r && !(page_seems_stuck sp)) <;> simp
        have hstep : pollRecovered ((some r, sp) :: rest) = pollRecovered rest := by
          simp [pollRecovered, hcf]
        rw [hstep, ih]
        constructor
        · rintro ⟨pre, p, rr, heq, hp, hall⟩
          refine ⟨(some r, sp) :: pre, p, rr, by simp [heq], hp, ?_⟩
          intro y hy
          rcases List.mem_cons.mp hy with hy | hy
          · subst hy
            exact ⟨by simp, by simpa [recoversNow] using hcf⟩
          · exact hall y hy
        · rintro ⟨pre, p, rr, heq, hp, hall⟩
          cases pre with
          | nil =>
            rw [List.nil_append] at heq
            injection heq with he1 he2
            rw [← he1] at hp
            exact absurd hp (by simp)
          | cons y pre2 =>
            rw [List.cons_append] at heq
            injection heq with he1 he2
            exact ⟨pre2, p, rr, he2, hp, fun z hz => hall z (List.mem_cons_of_mem _ hz)⟩

/-- The trailing marker wait raises iff a marker was required, timed out,
and the page still looked stuck. -/
theorem postWaitCheck_error_iff (env : NavEnv) (post_wait : Bool) :
    postWaitCheck env post_wait = Except.error () ↔
      (post_wait = true ∧ env.markerFound = false ∧ page_seems_stuck env.stuck3 = true) := by
  unfold postWaitCheck
  cases post_wait <;> cases hm : env.markerFound <;>
    cases hs : page_seems_stuck env.stuck3 <;> simp [hm, hs]

/-- C3: `safe_get` issues at most one refresh per navigation attempt, and
raises `RestartSession` exactly when the initial `driver.get` raises, a
readiness-poll probe raises, the refresh raises, a post-refresh-poll probe
raises, or a supplied `post_wait_xpath` marker is not observed within its
wait while the page still looks stuck; in every other case it returns
normally. -/
theorem c3_safe_get (env : NavEnv) (post_wait : Bool) :
    ((safe_get env post_wait).2.count NavAct.refresh ≤ 1) ∧
    ((safe_get env post_wait).1 = Except.error () ↔
      (env.getOk = false
        ∨ (env.getOk = true ∧ pollRaisesCond env.poll1)
        ∨ (env.getOk = true ∧ ¬ pollRaisesCond env.poll1 ∧
            page_seems_stuck env.stuck1 = true ∧ env.refreshOk = false)
        ∨ (env.getOk = true ∧ ¬ pollRaisesCond env.poll1 ∧
            page_seems_stuck env.stuck1 = true ∧ env.refreshOk = true ∧
            pollRecRaisesCond env.poll2)
        ∨ (env.getOk = true ∧ ¬ pollRaisesCond env.poll1 ∧
            (page_seems_stuck env.stuck1 = true →
              env.refreshOk = true ∧ ¬ pollRecRaisesCond env.poll2) ∧
            post_wait = true ∧ env.markerFound = false ∧
            page_seems_stuck env.stuck3 = true))) := by
  cases hget : env.getOk with
  | false =>
    constructor
    · simp [safe_get, hget]
    · simp [safe_get, hget]
  | true =>
    cases hpoll : pollReady env.poll1 with
    | error e =>
      cases e
      have hc : pollRaisesCond env.poll1 := (pollReady_error_iff _).mp hpoll
      constructor
      · simp [safe_get, hget, hpoll]
      · simp [safe_get, hget, hpoll, hc]
    | ok v =>
      cases v
      have hnc : ¬ pollRaisesCond env.poll1 := fun hc => by
        rw [(pollReady_error_iff _).mpr hc] at hpoll
        exact absurd hpoll (by simp)
      cases hst : page_seems_stuck env.stuck1 with
      | false =>
        constructor
        · simp [safe_get, hget, hpoll, hst]
        · simp [safe_get, hget, hpoll, hst, hnc, postWaitCheck_error_iff]
      | true =>
        cases href : env.refreshOk with
        | false =>
          constructor
          · simp [safe_get, hget, hpoll, hst, href]
          · simp [safe_get, hget, hpoll, hst, href, hnc]
        | true =>
          cases hrec : pollRecovered env.poll2 with
          | error e2 =>
            cases e2
            have hc2 : pollRecRaisesCond env.poll2 := (pollRecovered_error_iff _).mp hrec
            constructor
            · simp [safe_get, hget, hpoll, hst, href, hrec]
            · simp [safe_get, hget, hpoll, hst, href, hrec, hnc, hc2]
          | ok v2 =>
            cases v2
            have hnc2 : ¬ pollRecRaisesCond env.poll2 := fun hc2 => by
              rw [(pollRecovered_error_iff _).mpr hc2] at hrec
              exact absurd hrec (by simp)
            constructor
            · simp [safe_get, hget, hpoll, hst, href, hrec]
            · simp [safe_get, hget, hpoll, hst, href, hrec, hnc, hnc2,
                postWaitCheck_error_iff]

/-- A successful `matchAt` means the input starts with the literal pattern
followed by at least one digit, and captures the maximal digit run. -/
theorem matchAt_some {cs ds : List Char} (h : matchAt cs = some ds) :
    ∃ post, cs = jobsViewPat ++ post ∧ ds = post.takeWhile Char.isDigit ∧ ds ≠ [] := by
  unfold matchAt at h
  by_cases hp : jobsViewPat.isPrefixOf cs
  · rw [if_pos hp] at h
    rcases List.isPrefixOf_iff_prefix.mp hp with ⟨post, hpost⟩
    refine ⟨post, hpost.symm, ?_, ?_⟩
    · rw [← hpost, List.drop_left] at h
      by_cases he : (post.takeWhile Char.isDigit).isEmpty = true
      · rw [if_pos he] at h
        exact absurd h (by simp)
      · rw [if_neg he] at h
        injection h with h
        exact h.symm
    · rw [← hpost, List.drop_left] at h
      by_cases he : (post.takeWhile Char.isDigit).isEmpty = true
      · rw [if_pos he] at h
        exact absurd h (by simp)
      · rw [if_neg he] at h
        injection h with h
        rw [← h]
        exact fun hnil => he (by rw [hnil]; rfl)
  · rw [if_neg hp] at h
    exact absurd h (by simp)

/-- `matchAt` succeeds on anything of the shape pattern-then-digit. -/
theorem matchAt_isSome {d : Char} {post : List Char} (hd : d.isDigit = true) :
    (matchAt (jobsViewPat ++ d :: post)).isSome = true := by
  unfold matchAt
  have hp : jobsViewPat.isPrefixOf (jobsViewPat ++ d :: post) :=
    List.isPrefixOf_iff_prefix.mpr ⟨d :: post, rfl⟩
  rw [if_pos hp, List.drop_left, List.takeWhile_cons, if_pos hd]
  simp

/-- A successful search decomposes the input around a leftmost match. -/
theorem searchJobId_some {cs : List Char} {ds : List Char}
    (h : searchJobId cs = some ds) :
    ∃ pre suf, cs = pre ++ suf ∧ matchAt suf = some ds := by
  induction cs with
  | nil => exact absurd h (by simp [searchJobId])
  | cons c rest ih =>
    unfold searchJobId at h
    cases hm : matchAt (c :: rest) with
    | some ds2 =>
      rw [hm] at h
      injection h with h
      exact ⟨[], c :: rest, rfl, by rw [hm, h]⟩
    | none =>
      rw [hm] at h
      rcases ih h with ⟨pre, suf, heq, hma⟩
      exact ⟨c :: pre, suf, by rw [List.cons_append, heq], hma⟩

/-- A failed search means no suffix matches. -/
theorem searchJobId_none {cs : List Char} (h : searchJobId cs = none) :
    ∀ pre suf, cs = pre ++ suf → matchAt suf = none := by
  induction cs with
  | nil =>
    intro pre suf heq
    have hsuf : suf = [] := (List.append_eq_nil.mp heq.symm).2
    rw [hsuf]
    rfl
  | cons c rest ih =>
    unfold searchJobId at h
    cases hm : matchAt (c :: rest) with
    | some ds2 =>
      rw [hm] at h
      exact absurd h (by simp)
    | none =>
      rw [hm] at h
      intro pre suf heq
      cases pre with
      | nil =>
        rw [List.nil_append] at heq
        rw [← heq]
        exact hm
      | cons p pre2 =>
        rw [List.cons_append] at heq
        injection heq with he1 he2
        exact ih h pre2 suf he2

/-- A successful search yields the full pattern-digits decomposition and a
captured run starting with a digit. -/
theorem searchJobId_decomp {cs ds : List Char} (h : searchJobId cs = some ds) :
    ∃ pre d post, cs = pre ++ jobsViewPat ++ d :: post ∧ d.isDigit = true ∧
      ds = d :: post.takeWhile Char.isDigit := by
  rcases searchJobId_some h with ⟨pre, suf, heq, hma⟩
  rcases matchAt_some hma with ⟨post0, hsuf, hds, hne⟩
  cases post0 with
  | nil => exact absurd hds (by simpa using hne)
  | cons d post2 =>
    by_cases hd : d.isDigit = true
    · refine ⟨pre, d, post2, ?_, hd, ?_⟩
      · rw [heq, hsuf, List.append_assoc]
      · rw [hds, List.takeWhile_cons, if_pos hd]
    · rw [List.takeWhile_cons, if_neg hd] at hds
      exact absurd hds hne

/-- `extract_job_id_from_url` returns the sentinel exactly on urls with no
`/jobs/view/<digits>` segment. -/
theorem extract_unknown_iff (url : String) :
    extract_job_id_from_url url = "unknown" ↔ ¬ hasJobsViewId url := by
  constructor
  · rintro h ⟨pre, d, post, heq, hd⟩
    cases hs : searchJobId url.toList with
    | none =>
      have hnone := searchJobId_none hs pre (jobsViewPat ++ d :: post)
        (by rw [heq, List.append_assoc])
      have h2 := @matchAt_isSome d post hd
      rw [hnone] at h2
      exact absurd h2 (by simp)
    | some ds =>
      rcases searchJobId_decomp hs with ⟨pre2, d2, post2, heq2, hd2, hds2⟩
      have hext : extract_job_id_from_url url = String.mk ds := by
        unfold extract_job_id_from_url
        rw [hs]
      rw [hext] at h
      have hdata : ds = "unknown".data := congrArg String.data h
      rw [hds2] at hdata
      rw [show "unknown".data = ['u', 'n', 'k', 'n', 'o', 'w', 'n'] from by decide] at hdata
      injection hdata with h1 h2
      rw [h1] at hd2
      exact absurd hd2 (by decide)
  · intro hn
    cases hs : searchJobId url.toList with
    | none =>
      unfold extract_job_id_from_url
      rw [hs]
    | some ds =>
      exfalso
      apply hn
      rcases searchJobId_decomp hs with ⟨pre, d, post, heq, hd, -⟩
      exact ⟨pre, d, post, heq, hd⟩

/-- No produced list item carries the sentinel id. -/
theorem gj_no_unknown_items (anchors : List Anchor) (seen : Finset String) :
    ∀ it ∈ (get_jobs_from_list_page anchors seen).1, it.job_id ≠ "unknown" := by
  induction anchors generalizing seen with
  | nil =>
    intro it hit
    simp [get_jobs_from_list_page] at hit
  | cons a rest ih =>
    intro it hit
    simp only [get_jobs_from_list_page] at hit
    cases ha : a.href with
    | none =>
      rw [ha] at hit
      exact ih seen it hit
    | some url =>
      rw [ha] at hit
      simp only at hit
      by_cases hskip : extract_job_id_from_url url = "unknown" ∨ extract_job_id_from_url url ∈ seen
      · rw [if_pos hskip] at hit
        exact ih seen it hit
      · rw [if_neg hskip] at hit
        simp only [List.mem_cons] at hit
        rcases hit with hit | hit
        · rw [hit]
          exact (not_or.mp hskip).1
        · exact ih (insert (extract_job_id_from_url url) seen) it hit

/-- The sentinel id is never added to the seen set. -/
theorem gj_seen_no_unknown (anchors : List Anchor) (seen : Finset String)
    (h : "unknown" ∉ seen) : "unknown" ∉ (get_jobs_from_list_page anchors seen).2 := by
  induction anchors generalizing seen with
  | nil => simpa [get_jobs_from_list_page] using h
  | cons a rest ih =>
    simp only [get_jobs_from_list_page]
    cases ha : a.href with
    | none => exact ih seen h
    | some url =>
      simp only
      by_cases hskip : extract_job_id_from_url url = "unknown" ∨ extract_job_id_from_url url ∈ seen
      · rw [if_pos hskip]
        exact ih seen h
      · rw [if_neg hskip]
        refine ih (insert (extract_job_id_from_url url) seen) ?_
        rw [Finset.mem_insert]
        rintro (heq | hmem)
        · exact (not_or.mp hskip).1 heq.symm
        · exact h hmem

/-- C10: a url with no `/jobs/view/<digits>` segment extracts to the
sentinel `"unknown"` (and only such urls do), and `get_jobs_from_list_page`
skips such anchors entirely: no produced item carries the sentinel and the
sentinel never enters the seen set. -/
theorem c10_unknown_never_scraped :
    (∀ url, extract_job_id_from_url url = "unknown" ↔ ¬ hasJobsViewId url) ∧
    (∀ anchors seen, ∀ it ∈ (get_jobs_from_list_page anchors seen).1, it.job_id ≠ "unknown") ∧
    (∀ anchors seen, "unknown" ∉ seen → "unknown" ∉ (get_jobs_from_list_page anchors seen).2) :=
  ⟨extract_unknown_iff, gj_no_unknown_items, gj_seen_no_unknown⟩

/-- A concrete anchor with job id 111, shared by several witnesses. -/
def anchorA : Anchor := ⟨some "https://www.linkedin.com/jobs/view/111/", none, none, none⟩

/-- A concrete anchor with job id 222, shared by several witnesses. -/
def anchorB : Anchor := ⟨some "https://www.linkedin.com/jobs/view/222/", none, none, none⟩

/-- Witness for `c10_unknown_never_scraped` on a one-anchor page starting
from an empty seen set. -/
theorem c10_witness :
    ((⟨"https://www.linkedin.com/jobs/view/111/", none, none, none, "111"⟩ : JobListItem) ∈
        (get_jobs_from_list_page [anchorA] ∅).1 ∧
      (⟨"https://www.linkedin.com/jobs/view/111/", none, none, none,
        "111"⟩ : JobListItem).job_id ≠ "unknown") ∧
    (("unknown" : String) ∉ (∅ : Finset String) ∧
      "unknown" ∉ (get_jobs_from_list_page [anchorA] ∅).2) :=
  ⟨⟨by decide,
    c10_unknown_never_scraped.2.1 [anchorA] ∅
      ⟨"https://www.linkedin.com/jobs/view/111/", none, none, none, "111"⟩ (by decide)⟩,
   ⟨by decide, c10_unknown_never_scraped.2.2 [anchorA] ∅ (by decide)⟩⟩

/-- The seen set after list extraction is the old seen set plus every
usable id on the page — ids enter `seen_job_ids` at extraction time. -/
theorem gj_seen (anchors : List Anchor) (seen : Finset String) :
    (get_jobs_from_list_page anchors seen).2 = seen ∪ pageIds anchors := by
  induction anchors generalizing seen with
  | nil => simp [get_jobs_from_list_page, pageIds]
  | cons a rest ih =>
    simp only [get_jobs_from_list_page, pageIds]
    cases ha : a.href with
    | none => exact ih seen
    | some url =>
      simp only
      by_cases hu : extract_job_id_from_url url = "unknown"
      · rw [if_pos (Or.inl hu), if_pos hu]
        exact ih seen
      · rw [if_neg hu]
        by_cases hmem : extract_job_id_from_url url ∈ seen
        · rw [if_pos (Or.inr hmem), ih seen]
          ext x
          simp only [Finset.mem_union, Finset.mem_insert]
          constructor
          · rintro (hx | hx)
            · exact Or.inl hx
            · exact Or.inr (Or.inr hx)
          · rintro (hx | hx | hx)
            · exact Or.inl hx
            · exact Or.inl (by rw [hx]; exact hmem)
            · exact Or.inr hx
        · rw [if_neg (by rintro (h | h); exacts [hu h, hmem h])]
          simp only
          rw [ih (insert (extract_job_id_from_url url) seen),
            Finset.insert_union, Finset.union_insert]

/-- The items produced by list extraction contain an id exactly once when
it is a usable id of the page not already seen, and never otherwise. -/
theorem gj_count (anchors : List Anchor) (seen : Finset String) (jid : String) :
    countItems (get_jobs_from_list_page anchors seen).1 jid
      = if jid ∈ pageIds anchors ∧ jid ∉ seen then 1 else 0 := by
  induction anchors generalizing seen with
  | nil => simp [get_jobs_from_list_page, pageIds, countItems]
  | cons a rest ih =>
    rcases a with ⟨href, rh, ch, ar⟩
    cases href with
    | none => simpa only [get_jobs_from_list_page, pageIds] using ih seen
    | some url =>
      simp only [get_jobs_from_list_page, pageIds]
      by_cases hu : extract_job_id_from_url url = "unknown"
      · rw [if_pos (Or.inl hu)]
        have hp : (if extract_job_id_from_url url = "unknown" then pageIds rest
            else insert (extract_job_id_from_url url) (pageIds rest)) = pageIds rest :=
          if_pos hu
        simp only [hp]
        exact ih seen
      · have hp : (if extract_job_id_from_url url = "unknown" then pageIds rest
            else insert (extract_job_id_from_url url) (pageIds rest))
            = insert (extract_job_id_from_url url) (pageIds rest) := if_neg hu
        simp only [hp]
        by_cases hmem : extract_job_id_from_url url ∈ seen
        · rw [if_pos (Or.inr hmem), ih seen]
          refine if_congr ⟨fun hx => ⟨Finset.mem_insert_of_mem hx.1, hx.2⟩, fun hx => ?_⟩ rfl rfl
          rcases Finset.mem_insert.mp hx.1 with heq | hin
          · exact absurd (heq ▸ hmem) hx.2
          · exact ⟨hin, hx.2⟩
        · rw [if_neg (by rintro (h | h); exacts [hu h, hmem h])]
          simp only [countItems, List.countP_cons, decide_eq_true_eq]
          have ihh := ih (insert (extract_job_id_from_url url) seen)
          rw [countItems] at ihh
          rw [ihh]
          by_cases hji : extract_job_id_from_url url = jid
          · rw [if_pos hji]
            rw [if_neg (by rw [← hji]; simp), if_pos ⟨by rw [← hji]; exact Finset.mem_insert_self .., by rw [← hji]; exact hmem⟩]
          · rw [if_neg hji]
            have h1 : (jid ∈ pageIds rest ∧ jid ∉ insert (extract_job_id_from_url url) seen)
                ↔ (jid ∈ insert (extract_job_id_from_url url) (pageIds rest) ∧ jid ∉ seen) := by
              constructor
              · rintro ⟨hin, hnot⟩
                exact ⟨Finset.mem_insert_of_mem hin,
                  fun hs => hnot (Finset.mem_insert_of_mem hs)⟩
              · rintro ⟨hin, hnot⟩
                rcases Finset.mem_insert.mp hin with heq | hin2
                · exact absurd heq.symm hji
                · exact ⟨hin2, fun hs =>
                    (Finset.mem_insert.mp hs).elim (fun heq => hji heq.symm) hnot⟩
            rw [if_congr h1 rfl rfl]
            omega

/-- Scraping a list of items appends exactly the rows of the non-failing
items, in order. -/
theorem scrape_items_data (p : Int) (fails : String → Bool) (items : List JobListItem)
    (st : RunState) :
    (scrape_items p fails items st).data
      = st.data ++ (items.filter fun it => !fails it.job_id).map
          (fun it => (⟨it.job_id, it.url, p⟩ : Row)) := by
  induction items generalizing st with
  | nil => simp [scrape_items]
  | cons it rest ih =>
    by_cases hf : fails it.job_id
    · simp [scrape_items, hf, ih]
    · simp only [scrape_items, hf]
      rw [if_neg (by simp [hf]), ih]
      simp [List.filter_cons, hf]

/-- The item loop never changes the in-memory seen set. -/
theorem scrape_items_seen (p : Int) (fails : String → Bool) (items : List JobListItem)
    (st : RunState) : (scrape_items p fails items st).seen = st.seen := by
  induction items generalizing st with
  | nil => rfl
  | cons it rest ih =>
    by_cases hf : fails it.job_id
    · simp [scrape_items, hf, ih]
    · simp only [scrape_items, hf]
      rw [if_neg (by simp [hf]), ih]

/-- With no item failures, any nonempty item loop leaves the state file
holding the full current seen set and the page number. -/
theorem scrape_items_persisted (p : Int) (items : List JobListItem) (st : RunState) :
    (scrape_items p (fun _ => false) items st).persisted
      = if items = [] then st.persisted else some ⟨st.seen, p⟩ := by
  induction items generalizing st with
  | nil => simp [scrape_items]
  | cons it rest ih =>
    simp only [scrape_items]
    rw [if_neg (by simp), ih]
    by_cases hr : rest = [] <;> simp [hr]

/-- One page adds a given id's row exactly when the page shows it, it was
unseen, and its detail fetch does not fail. -/
theorem scrape_page_count (p : Int) (fails : String → Bool) (anchors : List Anchor)
    (st : RunState) (jid : String) :
    countRows (scrape_page p fails anchors st).data jid
      = countRows st.data jid +
        (if jid ∈ pageIds anchors ∧ jid ∉ st.seen ∧ fails jid = false then 1 else 0) := by
  unfold scrape_page
  simp only [countRows, scrape_items_data, List.countP_append, List.countP_map,
    List.countP_filter, Function.comp]
  have hcnt : ((get_jobs_from_list_page anchors st.seen).1.countP fun it =>
      decide (it.job_id = jid) && !fails it.job_id)
      = if jid ∈ pageIds anchors ∧ jid ∉ st.seen ∧ fails jid = false then 1 else 0 := by
    by_cases hf : fails jid = true
    · rw [List.countP_eq_zero.mpr, if_neg (by simp [hf])]
      intro it hit
      by_cases hji : it.job_id = jid
      · simp [hji, hf]
      · simp [hji]
    · have hf2 : fails jid = false := by revert hf; cases fails jid <;> simp
      have hcong : ((get_jobs_from_list_page anchors st.seen).1.countP fun it =>
          decide (it.job_id = jid) && !fails it.job_id)
          = countItems (get_jobs_from_list_page anchors st.seen).1 jid := by
        rw [countItems]
        refine List.countP_congr fun it hit => ?_
        by_cases hji : it.job_id = jid
        · simp [hji, hf2]
        · simp [hji]
      rw [hcong, gj_count]
      by_cases h1 : jid ∈ pageIds anchors <;> by_cases h2 : jid ∈ st.seen <;>
        simp [h1, h2, hf2]
  rw [hcnt]

/-- One page extends the seen set by exactly its usable ids. -/
theorem scrape_page_seen (p : Int) (fails : String → Bool) (anchors : List Anchor)
    (st : RunState) :
    (scrape_page p fails anchors st).seen = st.seen ∪ pageIds anchors := by
  unfold scrape_page
  rw [scrape_items_seen]
  exact gj_seen anchors st.seen

/-- Across a run, the seen set accumulates every usable id of every page
(whether or not detail fetches fail). -/
theorem run_pages_seen (fails : String → Bool) (pages : List (Int × List Anchor))
    (st : RunState) :
    (run_pages fails pages st).seen = st.seen ∪ allIds pages := by
  induction pages generalizing st with
  | nil => simp [run_pages, allIds]
  | cons pg rest ih =>
    simp only [run_pages, allIds]
    rw [ih, scrape_page_seen, Finset.union_assoc]

/-- Across a run, a given id's rows grow by exactly one when some page
shows the id, it was not initially seen, and its fetch does not fail. -/
theorem run_pages_count (fails : String → Bool) (pages : List (Int × List Anchor))
    (st : RunState) (jid : String) :
    countRows (run_pages fails pages st).data jid
      = countRows st.data jid +
        (if jid ∈ allIds pages ∧ jid ∉ st.seen ∧ fails jid = false then 1 else 0) := by
  induction pages generalizing st with
  | nil => simp [run_pages, allIds]
  | cons pg rest ih =>
    simp only [run_pages, allIds]
    rw [ih, scrape_page_count, scrape_page_seen]
    by_cases h1 : jid ∈ pageIds pg.2 <;> by_cases h2 : jid ∈ allIds rest <;>
      by_cases h3 : jid ∈ st.seen <;> by_cases h4 : fails jid = false <;>
      simp [h1, h2, h3, h4, Finset.mem_union]

/-- Characterization of a page's usable ids in terms of its anchors. -/
theorem mem_pageIds (anchors : List Anchor) (jid : String) :
    jid ∈ pageIds anchors ↔
      (jid ≠ "unknown" ∧ ∃ a ∈ anchors, ∃ url, a.href = some url ∧
        extract_job_id_from_url url = jid) := by
  induction anchors with
  | nil => simp [pageIds]
  | cons a rest ih =>
    simp only [pageIds]
    cases ha : a.href with
    | none =>
      rw [ih]
      constructor
      · rintro ⟨hne, a2, ha2, url, hurl, hext⟩
        exact ⟨hne, a2, List.mem_cons_of_mem _ ha2, url, hurl, hext⟩
      · rintro ⟨hne, a2, ha2, url, hurl, hext⟩
        rcases List.mem_cons.mp ha2 with rfl | ha2
        · rw [ha] at hurl
          exact absurd hurl (by simp)
        · exact ⟨hne, a2, ha2, url, hurl, hext⟩
    | some url0 =>
      simp only
      by_cases hu : extract_job_id_from_url url0 = "unknown"
      · rw [if_pos hu, ih]
        constructor
        · rintro ⟨hne, a2, ha2, url, hurl, hext⟩
          exact ⟨hne, a2, List.mem_cons_of_mem _ ha2, url, hurl, hext⟩
        · rintro ⟨hne, a2, ha2, url, hurl, hext⟩
          rcases List.mem_cons.mp ha2 with rfl | ha2
          · rw [ha] at hurl
            injection hurl with hurl
            rw [← hurl] at hext
            exact absurd (hext ▸ hu) hne
          · exact ⟨hne, a2, ha2, url, hurl, hext⟩
      · rw [if_neg hu, Finset.mem_insert]
        constructor
        · rintro (rfl | hmem)
          · exact ⟨hu, a, List.mem_cons_self _ _, url0, ha, rfl⟩
          · rcases ih.mp hmem with ⟨hne, a2, ha2, url, hurl, hext⟩
            exact ⟨hne, a2, List.mem_cons_of_mem _ ha2, url, hurl, hext⟩
        · rintro ⟨hne, a2, ha2, url, hurl, hext⟩
          rcases List.mem_cons.mp ha2 with rfl | ha2
          · rw [ha] at hurl
            injection hurl with hurl
            rw [← hurl] at hext
            exact Or.inl hext.symm
          · exact Or.inr (ih.mpr ⟨hne, a2, ha2, url, hurl, hext⟩)

/-- Membership in the run-wide id set. -/
theorem mem_allIds (pages : List (Int × List Anchor)) (jid : String) :
    jid ∈ allIds pages ↔ ∃ pg ∈ pages, jid ∈ pageIds pg.2 := by
  induction pages with
  | nil => simp [allIds]
  | cons pg rest ih => simp [allIds, ih, Finset.mem_union]

/-- C1: in one run from a fresh state with no item-level failures, the
result collection holds exactly one row per id in `allIds pages` (the ids
encountered across all pages) and none otherwise; `allIds` membership is
exactly "some anchor's href extracts to this id"; and even with failures
no id ever yields two rows. -/
theorem c1_dedupe :
    (∀ pages jid,
      countRows (run_pages (fun _ => false) pages ⟨[], ∅, none⟩).data jid
        = if jid ∈ allIds pages then 1 else 0) ∧
    (∀ pages jid, jid ∈ allIds pages ↔
      (jid ≠ "unknown" ∧ ∃ pg ∈ pages, ∃ a ∈ pg.2, ∃ url,
        a.href = some url ∧ extract_job_id_from_url url = jid)) ∧
    (∀ (fails : String → Bool) pages jid,
      countRows (run_pages fails pages ⟨[], ∅, none⟩).data jid ≤ 1) := by
  refine ⟨fun pages jid => ?_, fun pages jid => ?_, fun fails pages jid => ?_⟩
  · rw [run_pages_count]
    simp [countRows]
  · rw [mem_allIds]
    constructor
    · rintro ⟨pg, hpg, hmem⟩
      rcases (mem_pageIds pg.2 jid).mp hmem with ⟨hne, a, ha, url, hurl, hext⟩
      exact ⟨hne, pg, hpg, a, ha, url, hurl, hext⟩
    · rintro ⟨hne, pg, hpg, a, ha, url, hurl, hext⟩
      exact ⟨pg, hpg, (mem_pageIds pg.2 jid).mpr ⟨hne, a, ha, url, hurl, hext⟩⟩
  · rw [run_pages_count]
    simp only [countRows, List.countP_nil, Nat.zero_add]
    split <;> simp

/-- C2 counterexample: on a two-item page processed from a fresh state,
interrupting after the first item's checkpoint leaves the persisted seen
set containing the second item's id `"222"` while the result collection
holds no row for it — on resume that id would be dropped, contradicting
"a stableId is never present in the persisted SeenSet unless its record
has been durably exported". -/
theorem c2_counterexample :
    (scrape_page_upto 1 1 (fun _ => false) [anchorA, anchorB] ⟨[], ∅, none⟩).persisted
        = some ⟨insert "222" (insert "111" ∅), 1⟩ ∧
      "222" ∈ (insert "222" (insert "111" (∅ : Finset String))) ∧
      countRows (scrape_page_upto 1 1 (fun _ => false) [anchorA, anchorB]
        ⟨[], ∅, none⟩).data "222" = 0 := by
  refine ⟨by decide, by decide, by decide⟩

/-- C2 amended: item processing is fetch, append, checkpoint — but every
new id on the page is marked seen during list extraction, before any
detail fetch, and each per-item checkpoint persists the entire current
seen set.  So after any prefix of `k ≥ 1` items of a fresh page, the
persisted seen set already holds all of the page's ids while the data only
holds rows for the first `k` items; an interruption mid-page therefore
leaves ids in the persisted SeenSet whose records were never exported. -/
theorem c2_checkpoint_order_amended (anchors : List Anchor) (k : Nat) (page : Int)
    (hk : 1 ≤ k) :
    (scrape_page_upto k page (fun _ => false) anchors ⟨[], ∅, none⟩).persisted
        = some ⟨pageIds anchors, page⟩ ∧
      (scrape_page_upto k page (fun _ => false) anchors ⟨[], ∅, none⟩).data.map Row.job_id
        = ((get_jobs_from_list_page anchors ∅).1.take k).map JobListItem.job_id := by
  constructor
  · show (scrape_items page (fun _ => false)
        ((get_jobs_from_list_page anchors ∅).1.take k)
        ⟨[], (get_jobs_from_list_page anchors ∅).2, some ⟨∅, page⟩⟩).persisted = _
    rw [scrape_items_persisted]
    by_cases hi : (get_jobs_from_list_page anchors ∅).1.take k = []
    · rw [if_pos hi]
      have hitems : (get_jobs_from_list_page anchors ∅).1 = [] := by
        rcases List.take_eq_nil_iff.mp hi with hk0 | hnil
        · omega
        · exact hnil
      have hpe : pageIds anchors = ∅ := by
        ext jid
        simp only [Finset.not_mem_empty, iff_false]
        intro hj
        have hc := gj_count anchors ∅ jid
        rw [hitems, if_pos ⟨hj, Finset.not_mem_empty jid⟩] at hc
        exact absurd hc.symm (by simp [countItems])
      rw [hpe]
    · rw [if_neg hi]
      show some (⟨(get_jobs_from_list_page anchors ∅).2, page⟩ : PersistedState) = _
      rw [gj_seen, Finset.empty_union]
  · show (scrape_items page (fun _ => false)
        ((get_jobs_from_list_page anchors ∅).1.take k)
        ⟨[], (get_jobs_from_list_page anchors ∅).2, some ⟨∅, page⟩⟩).data.map Row.job_id = _
    rw [scrape_items_data]
    simp only [List.map_map, List.nil_append, List.filter_true, Bool.not_false]
    rfl

/-- Witness for `c2_checkpoint_order_amended` on a fresh one-anchor page. -/
theorem c2_witness :
    1 ≤ 1 ∧
      ((scrape_page_upto 1 5 (fun _ => false) [anchorA] ⟨[], ∅, none⟩).persisted
          = some ⟨pageIds [anchorA], 5⟩ ∧
        (scrape_page_upto 1 5 (fun _ => false) [anchorA] ⟨[], ∅, none⟩).data.map Row.job_id
          = ((get_jobs_from_list_page [anchorA] ∅).1.take 1).map JobListItem.job_id) :=
  ⟨Nat.le_refl 1, c2_checkpoint_order_amended [anchorA] 1 5 (Nat.le_refl 1)⟩

end LinkedInJobScraper
